import Mathlib

/-!
Shallow embedding, in Lean 4, of the identity-resolution and nutrition-aggregation
core of the `fitness` backend (Django/DRF application).

The embedding follows the source files:
  * `backend/api/auth/middleware.py` (`SupabaseAuthentication`, `SimpleTokenAuthentication`)
  * `backend/api/models.py` (`UserProfile`)
  * `backend/api/nutrition/models.py` (`FoodItem`, `NutritionGoal`, `MealEntry`)
  * `backend/api/nutrition/views.py` (`MealEntryViewSet.summary`, `.weekly`, `.frequently_used`)
  * `backend/core/settings.py` (authentication-class order: `SimpleTokenAuthentication`,
    then `SupabaseAuthentication`; the remaining two framework classes are unreachable
    for `Bearer `/`Token ` headers, which are fully decided by the first two).

Conventions of the embedding:
  * Django rows become Lean structures; each table is a `List` in storage order.
  * Python `Decimal` fields become `ℚ` (`Decimal` division is exact up to 28
    significant digits; no example here comes near that bound), integer fields
    become `ℤ`, dates become `ℤ` (day number), strings stay `String`.
  * Python `int(x)` on a nonnegative/negative number truncates toward zero;
    this is `truncQ` below.
  * Python `int / int` true division and `float * int` multiplication are
    IEEE-754 binary64 operations: each produces the binary64 rounding
    (round-to-nearest, ties-to-even, 53 significant bits) of the exact
    rational result; this is `flDouble` below. `Decimal / Decimal` division
    rounds to 28 significant digits, which never moves an `int(...)`
    truncation for values built from the 8-digit, 2-decimal-place nutrition
    fields (the truncation boundary gap is at least about `1e-10` while the
    Decimal rounding error stays below about `1e-16`), so Decimal arithmetic
    is modelled exactly by `ℚ`.
  * `jwt.decode(token, options={"verify_signature": False})` is an external
    library call; it is a parameter `decode : String → Except String JwtPayload`
    of the resolver (the `Except.error` case models `jwt.PyJWTError`, carrying
    the exception text).
  * Django field values that are unset (`None`) and `0` are both falsy in the
    `if not self.x:` tests of `MealEntry.save`; the embedding uses `0` for both.
-/

namespace Fitness

/-! ### Python string helpers

`str.split(sep)` with an explicit separator keeps empty chunks and returns
`[""]` on the empty string; `pySplit` mirrors that on `List Char`. -/

/-- Python `s.split(c)` on the character list of `s` (explicit separator
semantics: empty chunks are kept, `"".split(c) = [""]`). -/
def pySplit (c : Char) : List Char → List (List Char)
  | [] => [[]]
  | x :: xs =>
    if x = c then [] :: pySplit c xs
    else
      match pySplit c xs with
      | [] => [[x]]
      | h :: t => (x :: h) :: t

/-- Python `s.split(c)` as an operation on `String`. -/
def pySplitStr (c : Char) (s : String) : List String :=
  (pySplit c s.toList).map List.asString

/-- Python `s.startswith(p)`. -/
def pyStartsWith (p s : String) : Bool :=
  p.toList.isPrefixOf s.toList

/-- Token extraction used by both authentication classes:
`auth_header.split(' ')[1]` (middleware.py lines 16, 19, 77). The index is in
range whenever the header starts with `"Bearer "` or `"Token "`. -/
def splitToken (header : String) : String :=
  ((pySplitStr ' ' header).get? 1).getD ""

/-- Opaque-token subject extraction (middleware.py lines 44 and 86):
`user_id = token.split(':')[0] if ':' in token else token`. -/
def subjectOf (token : String) : String :=
  if token.toList.contains ':' then ((pySplitStr ':' token).get? 0).getD "" else token

/-- Display-name derivation `email.split('@')[0]` (middleware.py line 53). -/
def localPart (email : String) : String :=
  ((pySplitStr '@' email).get? 0).getD ""

/-! ### Data model: `UserProfile` (api/models.py) -/

/-- Row of the `UserProfile` table (api/models.py lines 4-8): `user_id` is the
primary key, `email` and `display_name` the fields the resolver fills in.
The remaining profile fields play no role in the claims. -/
structure UserProfile where
  user_id : String
  email : String
  display_name : String
deriving DecidableEq

/-- The `UserProfile` table, in storage order. `user_id` is the primary key, so
rows created through `get_or_create` keyed on it stay unique. -/
abbrev ProfileDB := List UserProfile

/-- `UserProfile.objects.get_or_create(user_id=uid, defaults={...})`
(middleware.py lines 51-54 and 89-95): look the row up by `user_id`; if absent,
insert a fresh row built from the defaults. Returns the row, the `created`
flag and the table afterwards. -/
def get_or_create (db : ProfileDB) (uid email display_name : String) :
    UserProfile × Bool × ProfileDB :=
  match db.find? (fun p => p.user_id == uid) with
  | some p => (p, false, db)
  | none => (⟨uid, email, display_name⟩, true, db ++ [⟨uid, email, display_name⟩])

/-! ### Identity resolver (api/auth/middleware.py) -/

/-- Claims extracted from a JWT payload: `decoded.get('sub')` and
`decoded.get('email')` (middleware.py lines 33-34). `none` models an absent
claim. -/
structure JwtPayload where
  sub : Option String
  email : Option String
deriving DecidableEq

/-- Outcome of one DRF authentication class: `none` return (no credential of
the shape this class handles), raised `AuthenticationFailed` with its message,
or the `(profile, token)` success pair. -/
inductive AuthResult where
  | noCredential
  | failed (reason : String)
  | success (profile : UserProfile) (token : String)
deriving DecidableEq

/-- Python falsiness of an optional string claim: `not x` is true for `None`
and for the empty string (middleware.py line 36). -/
def pyFalsy : Option String → Bool
  | none => true
  | some s => s == ""

namespace SupabaseAuthentication

/-- Body of `SupabaseAuthentication.authenticate` after the header prefix has
been stripped (middleware.py lines 25-65). `isBearer` records whether the
header used the `Bearer` scheme (line 17) or the `Token` scheme (line 20).
All `AuthenticationFailed` texts are re-wrapped by the outer
`except Exception` handler (line 65) as `"Authentication failed: " + str(e)`. -/
def body (decode : String → Except String JwtPayload)
    (db : ProfileDB) (token : String) (isBearer : Bool) : AuthResult × ProfileDB :=
  match decode token with
  | .ok payload =>
    if pyFalsy payload.sub || pyFalsy payload.email then
      (.failed "Authentication failed: Invalid token format: missing user_id or email", db)
    else
      let uid := payload.sub.getD ""
      let em := payload.email.getD ""
      let (p, _, db') := get_or_create db uid em (localPart em)
      (.success p token, db')
  | .error e =>
    if isBearer then
      (.failed ("Authentication failed: Invalid JWT token: " ++ e), db)
    else
      let uid := subjectOf token
      let em := uid ++ "@example.com"
      let (p, _, db') := get_or_create db uid em (localPart em)
      (.success p token, db')

/-- `SupabaseAuthentication.authenticate` (middleware.py lines 11-65): accepts
`Bearer ` and `Token ` headers, decodes the token as a JWT without signature
verification, and falls back to opaque-token handling only for the `Token`
scheme. -/
def authenticate (decode : String → Except String JwtPayload)
    (db : ProfileDB) (header : String) : AuthResult × ProfileDB :=
  if pyStartsWith "Bearer " header then
    body decode db (splitToken header) true
  else if pyStartsWith "Token " header then
    body decode db (splitToken header) false
  else
    (.noCredential, db)

end SupabaseAuthentication

namespace SimpleTokenAuthentication

/-- `SimpleTokenAuthentication.authenticate` (middleware.py lines 71-104):
handles only `Token ` headers, always treating the token as opaque. -/
def authenticate (db : ProfileDB) (header : String) : AuthResult × ProfileDB :=
  if pyStartsWith "Token " header then
    let token := splitToken header
    let uid := subjectOf token
    let (p, _, db') := get_or_create db uid (uid ++ "@example.com") ("User " ++ uid)
    (.success p token, db')
  else
    (.noCredential, db)

end SimpleTokenAuthentication

/-- The configured DRF authentication chain (core/settings.py lines 59-64):
`SimpleTokenAuthentication` first, then `SupabaseAuthentication`. DRF moves to
the next class only on a `None` return; a raised `AuthenticationFailed` is
terminal. The two framework classes listed after these never see a
`Bearer `/`Token ` header that the first two have not already decided. -/
def resolveCredential (decode : String → Except String JwtPayload)
    (db : ProfileDB) (header : String) : AuthResult × ProfileDB :=
  match SimpleTokenAuthentication.authenticate db header with
  | (.noCredential, db') => SupabaseAuthentication.authenticate decode db' header
  | r => r

/-- The profile a resolution outcome carries, when it succeeded. -/
def resolvedProfile (r : AuthResult × ProfileDB) : Option UserProfile :=
  match r.1 with
  | .success p _ => some p
  | _ => none

/-! ### Numeric helpers -/

/-- Python `int(x)`: truncation toward zero, on the exact rational value
(views.py lines 340-343 and models.py line 175 apply `int(...)` to
nonnegative-or-negative exact quotients/products). -/
def truncQ (q : ℚ) : ℤ :=
  if 0 ≤ q then Rat.floor q else -(Rat.floor (-q))

/-- Rounding to the nearest integer, halves up: the reading of `round(...)` in
the specification text (round half-up; compare `round_eq` of Mathlib, which is
the same function). Used only to state what the specification asks for. -/
def specRound (q : ℚ) : ℤ :=
  Rat.floor (q + 1/2)

/-- Nearest integer with ties to even: the rounding of IEEE-754 binary64. -/
def roundTiesEven (q : ℚ) : ℤ :=
  let f := Rat.floor q
  let r := q - f
  if r < 1/2 then f
  else if 1/2 < r then f + 1
  else if f % 2 = 0 then f else f + 1

/-- Integer powers of two as rationals. -/
def pow2 (z : ℤ) : ℚ := (2 : ℚ) ^ z

/-- Fuel-driven base-2 logarithm on naturals; with `fuel ≥ n` it computes
`⌊log₂ n⌋` for `n ≥ 1`. -/
def log2Fuel : ℕ → ℕ → ℕ
  | 0, _ => 0
  | fuel + 1, n => if n ≤ 1 then 0 else log2Fuel fuel (n / 2) + 1

/-- Base-2 logarithm on naturals, rounded down (`0` at `0`). -/
def natLog2 (n : ℕ) : ℕ := log2Fuel n n

/-- The binade of a positive rational: `⌊log₂ q⌋`. For `q ≥ 1` this is the
bit length minus one of `⌊q⌋`; for `0 < q < 1` it is computed from the binade
of `q⁻¹ = den/num`, adjusting when `q⁻¹` is an exact power of two. -/
def floorLog2 (q : ℚ) : ℤ :=
  if 1 ≤ q then (natLog2 (q.num.toNat / q.den) : ℤ)
  else
    let e := natLog2 (q.den / q.num.toNat)
    if (q.den : ℤ) = q.num * ((2 ^ e : ℕ) : ℤ) then -(e : ℤ) else -(e : ℤ) - 1

/-- Binary64 (IEEE-754 double) rounding of an exact rational value: round to
nearest with ties to even at 53 significant bits, subnormal below `2^-1022`.
CPython's `int / int` true division and `float * int` multiplication return
exactly `flDouble` of the exact rational result (overflow beyond `2^1024`
cannot arise from the bounded nutrition fields and is not modelled). -/
def flDouble (q : ℚ) : ℚ :=
  if q = 0 then 0
  else
    let s := |q|
    let e := floorLog2 s
    let scale : ℤ := if -1022 ≤ e then 52 - e else 1074
    let r := (roundTiesEven (s * pow2 scale) : ℚ) * pow2 (-scale)
    if 0 < q then r else -r

/-! ### Data model: nutrition (api/nutrition/models.py) -/

/-- Row of the `FoodItem` table (models.py lines 20-62): per-serving nutrient
values. `calories` is an `IntegerField`, the others `DecimalField`s, modelled
as `ℚ`. Brand/category/verification metadata play no role in the claims. -/
structure FoodItem where
  id : Nat
  name : String
  calories : ℤ
  protein : ℚ
  carbs : ℚ
  fat : ℚ
  fiber : ℚ
  sugar : ℚ
  sodium : ℚ
deriving DecidableEq

/-- Row of the `MealEntry` table (models.py lines 130-170): the logged event
plus the computed nutrient snapshot. `food_item` is the foreign key (the
`FoodItem.id`), `meal_type` the meal-type name the entry is grouped under,
`date` a day number. -/
structure MealEntry where
  user_id : String
  food_item : Nat
  meal_type : String
  date : ℤ
  servings : ℚ
  calories : ℤ
  protein : ℚ
  carbs : ℚ
  fat : ℚ
  fiber : ℚ
  sugar : ℚ
  sodium : ℚ
deriving DecidableEq

/-- Row of the `NutritionGoal` table (models.py lines 85-114): daily targets,
one row per user (`user_id` is unique). -/
structure NutritionGoal where
  user_id : String
  calorie_target : ℤ
  protein_target : ℚ
  carbs_target : ℚ
  fat_target : ℚ
  fiber_target : ℚ
  sugar_target : ℚ
  sodium_target : ℚ
deriving DecidableEq

/-- `NutritionGoal.objects.create(user_id=user_id)` with the field defaults of
models.py lines 93-99: 2000 kcal, 150 g protein, 200 g carbs, 65 g fat,
25 g fiber, 50 g sugar, 2300 mg sodium. -/
def defaultGoal (uid : String) : NutritionGoal :=
  ⟨uid, 2000, 150, 200, 65, 25, 50, 2300⟩

/-- The nutrition tables, each in storage order. -/
structure NutritionDB where
  foods : List FoodItem
  goals : List NutritionGoal
  entries : List MealEntry
deriving DecidableEq

namespace MealEntry

/-- `MealEntry.save` (models.py lines 172-189): every snapshot field that is
falsy (unset/`None` or `0`, both modelled as `0`) is computed from the
referenced food's per-serving value times `servings`; `calories` through
Python `int(...)`. Truthy (non-zero) fields are left untouched. -/
def save (food : FoodItem) (e : MealEntry) : MealEntry :=
  { e with
    calories := if e.calories = 0 then truncQ ((food.calories : ℚ) * e.servings) else e.calories
    protein := if e.protein = 0 then food.protein * e.servings else e.protein
    carbs := if e.carbs = 0 then food.carbs * e.servings else e.carbs
    fat := if e.fat = 0 then food.fat * e.servings else e.fat
    fiber := if e.fiber = 0 then food.fiber * e.servings else e.fiber
    sugar := if e.sugar = 0 then food.sugar * e.servings else e.sugar
    sodium := if e.sodium = 0 then food.sodium * e.servings else e.sodium }

end MealEntry

/-- Editing a `FoodItem` row and saving it (`food.calories = x; food.save()`):
the foods table is rewritten at that id, nothing else is touched. No code in
the repository recomputes `MealEntry` snapshots when a food changes. -/
def updateFood (db : NutritionDB) (fid : Nat) (f : FoodItem) : NutritionDB :=
  { db with foods := db.foods.map (fun g => if g.id = fid then f else g) }

/-! ### Dict-style grouping

The three aggregation endpoints all build a Python dict by iterating entries:
`if key not in d: d[key] = zero` followed by an in-place update. A Python dict
keeps insertion order, so it is an association list whose keys stay distinct:
an update rewrites the stored value in place, a new key is appended. -/

/-- Lookup of `d[key]` in the association-list model of a dict. -/
def findK {κ β : Type} [DecidableEq κ] (acc : List (κ × β)) (c : κ) : Option β :=
  (acc.find? (fun p => decide (p.1 = c))).map Prod.snd

/-- One iteration of the dict-building loop on entry `e`:
`if k(e) not in d: d[k(e)] = z(e)`, then `d[k(e)] = add(d[k(e)], e)`. -/
def stepGroup {α κ β : Type} [DecidableEq κ] (k : α → κ) (z : α → β) (add : β → α → β)
    (acc : List (κ × β)) (e : α) : List (κ × β) :=
  if (findK acc (k e)).isSome then
    acc.map (fun p => if p.1 = k e then (p.1, add p.2 e) else p)
  else
    acc ++ [(k e, add (z e) e)]

/-- The whole dict-building loop over the fetched entries. -/
def groupFold {α κ β : Type} [DecidableEq κ] (k : α → κ) (z : α → β) (add : β → α → β)
    (es : List α) (acc : List (κ × β)) : List (κ × β) :=
  es.foldl (stepGroup k z add) acc

/-- The keys of the association-list model of a dict, in insertion order. -/
def keysOf {κ β : Type} (l : List (κ × β)) : List κ :=
  l.map Prod.fst

/-! ### Nutrition aggregation (api/nutrition/views.py, `MealEntryViewSet`) -/

namespace MealEntryViewSet

/-- The queryset `MealEntry.objects.filter(user_id=user_id, date=date)`
(views.py lines 291, 315). -/
def entriesFor (db : NutritionDB) (user : String) (date : ℤ) : List MealEntry :=
  db.entries.filter (fun e => e.user_id == user && e.date == date)

/-- The get-or-create of the user's `NutritionGoal` (views.py lines 318-321):
the unique row for the user, or a fresh default row. -/
def getOrCreateGoal (db : NutritionDB) (user : String) : NutritionGoal :=
  (db.goals.find? (fun g => g.user_id == user)).getD (defaultGoal user)

/-- The structure serialized by `DailyNutritionSummarySerializer` (views.py
lines 354-372): date, the seven totals, the four goal values, the four
progress percentages and the per-meal-type grouping (meal-type name to the
entries of that meal, in entry order). -/
structure DailySummary where
  date : ℤ
  total_calories : ℤ
  total_protein : ℚ
  total_carbs : ℚ
  total_fat : ℚ
  total_fiber : ℚ
  total_sugar : ℚ
  total_sodium : ℚ
  calorie_goal : ℤ
  protein_goal : ℚ
  carbs_goal : ℚ
  fat_goal : ℚ
  calorie_progress : ℤ
  protein_progress : ℤ
  carbs_progress : ℤ
  fat_progress : ℤ
  meals : List (String × List MealEntry)
deriving DecidableEq

/-- `MealEntryViewSet.summary` (views.py lines 295-375) after the date has
been parsed: aggregate totals (`Sum` over an empty queryset is `None`,
replaced by `0`, which coincides with the empty list sum), compute progress as
`int(total / target * 100)` guarded by `target > 0` — for calories this is
binary64 float arithmetic (`int / int` division then `float * int`
multiplication, each correctly rounded, `flDouble`), for the Decimal
nutrients exact arithmetic — and group the entries by meal-type name. -/
def summary (db : NutritionDB) (user : String) (date : ℤ) : DailySummary :=
  let entries := entriesFor db user date
  let goal := getOrCreateGoal db user
  let total_calories : ℤ := (entries.map (·.calories)).sum
  let total_protein : ℚ := (entries.map (·.protein)).sum
  let total_carbs : ℚ := (entries.map (·.carbs)).sum
  let total_fat : ℚ := (entries.map (·.fat)).sum
  let total_fiber : ℚ := (entries.map (·.fiber)).sum
  let total_sugar : ℚ := (entries.map (·.sugar)).sum
  let total_sodium : ℚ := (entries.map (·.sodium)).sum
  { date := date
    total_calories := total_calories
    total_protein := total_protein
    total_carbs := total_carbs
    total_fat := total_fat
    total_fiber := total_fiber
    total_sugar := total_sugar
    total_sodium := total_sodium
    calorie_goal := goal.calorie_target
    protein_goal := goal.protein_target
    carbs_goal := goal.carbs_target
    fat_goal := goal.fat_target
    calorie_progress :=
      if 0 < goal.calorie_target then
        truncQ (flDouble (flDouble ((total_calories : ℚ) / (goal.calorie_target : ℚ)) * 100))
      else 0
    protein_progress :=
      if 0 < goal.protein_target then truncQ ((total_protein / goal.protein_target) * 100) else 0
    carbs_progress :=
      if 0 < goal.carbs_target then truncQ ((total_carbs / goal.carbs_target) * 100) else 0
    fat_progress :=
      if 0 < goal.fat_target then truncQ ((total_fat / goal.fat_target) * 100) else 0
    meals := groupFold (·.meal_type) (fun _ => ([] : List MealEntry)) (fun l e => l ++ [e])
      entries [] }

/-- One element of the `weekly` response (views.py lines 396-422): a date and
the four per-day totals. These five keys are the only ones the code puts into
the per-day dict; there are no goal or progress keys. -/
structure DayTotals where
  date : ℤ
  calories : ℤ
  protein : ℚ
  carbs : ℚ
  fat : ℚ
deriving DecidableEq

/-- The zero-valued per-day dict entry created when a date is first seen
(views.py lines 398-404 and 416-422). -/
def dayZero (e : MealEntry) : DayTotals :=
  ⟨e.date, 0, 0, 0, 0⟩

/-- The `+=` block of the weekly loop (views.py lines 406-409). -/
def dayAdd (t : DayTotals) (e : MealEntry) : DayTotals :=
  { t with
    calories := t.calories + e.calories
    protein := t.protein + e.protein
    carbs := t.carbs + e.carbs
    fat := t.fat + e.fat }

/-- The seven dates of the weekly window in the order the fill loop visits
them: `start, start + 1, ..., start + 6` (views.py lines 383-384 and 412-423:
`start_date = end_date - timedelta(days=6)` and a walk up to `end_date`). -/
def windowDates (start : ℤ) : List ℤ :=
  (List.range 7).map (fun i : ℕ => start + (i : ℤ))

/-- One step of the fill-in-missing-dates loop (views.py lines 414-422):
append a zero record when the date is absent. -/
def fillStep (acc : List (ℤ × DayTotals)) (d : ℤ) : List (ℤ × DayTotals) :=
  if (findK acc d).isSome then acc else acc ++ [(d, ⟨d, 0, 0, 0, 0⟩)]

/-- The fill-in-missing-dates loop (views.py lines 411-423): walk the seven
window dates in ascending order and append a zero record for each absent one. -/
def weeklyFill (start : ℤ) (acc : List (ℤ × DayTotals)) : List (ℤ × DayTotals) :=
  (windowDates start).foldl fillStep acc

/-- Sorting `result.sort(key=lambda x: x['date'])` compares day records by
date; the comparison is total. -/
instance : IsTotal DayTotals (fun a b => a.date ≤ b.date) :=
  ⟨fun a b => le_total a.date b.date⟩

/-- Comparison of day records by date is transitive. -/
instance : IsTrans DayTotals (fun a b => a.date ≤ b.date) :=
  ⟨fun _ _ _ h1 h2 => le_trans h1 h2⟩

/-- Descending comparison of annotated serving sums is total. -/
instance : IsTotal (Nat × ℚ) (fun a b => b.2 ≤ a.2) :=
  ⟨fun a b => le_total b.2 a.2⟩

/-- Descending comparison of annotated serving sums is transitive. -/
instance : IsTrans (Nat × ℚ) (fun a b => b.2 ≤ a.2) :=
  ⟨fun _ _ _ h1 h2 => le_trans h2 h1⟩

/-- `MealEntryViewSet.weekly` (views.py lines 377-429): entries of the user in
the window `[today-6, today]` are grouped by date, missing window dates are
zero-filled, and the dict values are sorted by date. The grouping key in the
source is the `strftime('%Y-%m-%d')` string of the date, which is injective on
dates, so the date itself serves as the key here. -/
def weekly (db : NutritionDB) (user : String) (today : ℤ) : List DayTotals :=
  let start := today - 6
  let es := db.entries.filter
    (fun e => e.user_id == user && decide (start ≤ e.date) && decide (e.date ≤ today))
  let grouped := groupFold (·.date) dayZero dayAdd es []
  let filled := weeklyFill start grouped
  List.insertionSort (fun a b => a.date ≤ b.date) (filled.map Prod.snd)

/-- `MealEntryViewSet.frequently_used` (views.py lines 431-459): entries of
the user dated on or after `today - 30` (the query has no upper bound) are
grouped by food id, annotated with `Sum('servings')`, ordered by that sum
descending (`order_by('-count')`; ties are left to the store and modelled by a
stable sort) and truncated to `limit`; the surviving ids are mapped back to
their food rows, skipping ids absent from the foods table, as the
`food_dict` lookup does. -/
def frequently_used (db : NutritionDB) (user : String) (today : ℤ) (limit : Nat) :
    List FoodItem :=
  let thirtyDaysAgo := today - 30
  let es := db.entries.filter
    (fun e => e.user_id == user && decide (thirtyDaysAgo ≤ e.date))
  let grouped := groupFold (·.food_item) (fun _ => (0 : ℚ)) (fun s e => s + e.servings) es []
  let ranked := List.insertionSort (fun a b : Nat × ℚ => b.2 ≤ a.2) grouped
  let top := ranked.take limit
  top.filterMap (fun p => db.foods.find? (fun f => f.id == p.1))

/-- Sum of the serving multipliers of the entries of `es` that reference food
`fid` — the `Sum('servings')` annotation value of views.py line 447. -/
def servingsSum (es : List MealEntry) (fid : Nat) : ℚ :=
  ((es.filter (fun e => decide (e.food_item = fid))).map (·.servings)).sum

end MealEntryViewSet

/-! ### Concrete inputs used by witnesses and counterexamples -/

/-- Decoder behaviour of `jwt.decode` on a string that is not a JWT at all:
`PyJWTError` (for `"abc"` the library reports not enough segments). -/
def decodeNotJwt : String → Except String JwtPayload :=
  fun _ => .error "Not enough segments"

/-- Decoder behaviour on a structured token whose payload lacks the `sub`
claim. -/
def decodeNoSub : String → Except String JwtPayload :=
  fun _ => .ok ⟨none, some "person@example.org"⟩

/-- Decoder behaviour on well-formed claim tokens for subject `u7`: the
payload, hence the decode result, is independent of the token's signature
segment. -/
def decodeSubU7 : String → Except String JwtPayload :=
  fun _ => .ok ⟨some "u7", some "u7@mail.test"⟩

/-- A pre-existing profile row unrelated to the tokens above. -/
def bystanderProfile : UserProfile :=
  ⟨"w1", "w1@mail.test", "w1"⟩

/-- Goal row whose four tracked targets are all zero. -/
def zeroGoal : NutritionGoal :=
  ⟨"u", 0, 0, 0, 0, 0, 0, 0⟩

/-- Nutrition store for the progress counterexample: default-style goal
(calorie target 2000) and a single entry of 999 kcal on day 10. -/
def progressDB : NutritionDB where
  foods := []
  goals := [⟨"u", 2000, 150, 200, 65, 25, 50, 2300⟩]
  entries := [⟨"u", 1, "Lunch", 10, 1, 999, 10, 20, 5, 1, 1, 1⟩]

/-- Nutrition store exercising the float rounding of the progress division:
default-style goal and a single entry of 580 kcal on day 20; the program
reports `int(28.999999999999996) = 28`, not the exact-quotient truncation 29. -/
def progress580DB : NutritionDB where
  foods := []
  goals := [⟨"u", 2000, 150, 200, 65, 25, 50, 2300⟩]
  entries := [⟨"u", 1, "Dinner", 20, 1, 580, 10, 20, 5, 1, 1, 1⟩]

/-- Nutrition store with a zero-target goal and no entries at all. -/
def emptyDayDB : NutritionDB where
  foods := []
  goals := [zeroGoal]
  entries := []

/-- Food rows for the frequently-used examples. -/
def foodA : FoodItem := ⟨1, "Apple", 95, 0, 25, 0, 4, 19, 2⟩

/-- Second food row for the frequently-used examples. -/
def foodB : FoodItem := ⟨2, "Bread", 265, 9, 49, 3, 3, 5, 491⟩

/-- Store for the ranking example of the claim: food A logged once at 1.0
serving, food B logged once at 3.0 servings, both five days before "today"
(= day 100). -/
def frequentDB : NutritionDB where
  foods := [foodA, foodB]
  goals := []
  entries :=
    [⟨"u", 1, "Lunch", 95, 1, 95, 0, 25, 0, 4, 19, 2⟩,
     ⟨"u", 2, "Lunch", 95, 3, 795, 27, 147, 9, 9, 15, 1473⟩]

/-- Store for the window counterexample: food A logged within the trailing 30
days, food B logged only on day 110 — ten days after "today" (= day 100). -/
def futureDB : NutritionDB where
  foods := [foodA, foodB]
  goals := []
  entries :=
    [⟨"u", 1, "Lunch", 95, 3, 285, 0, 75, 0, 12, 57, 6⟩,
     ⟨"u", 2, "Dinner", 110, 5, 1325, 45, 245, 15, 15, 25, 2455⟩]

/-- Food row for the `MealEntry.save` counterexample: 5 kcal per serving. -/
def tinyFood : FoodItem := ⟨3, "Mint", 5, 1, 1, 0, 0, 0, 0⟩

/-- Entry being saved with snapshot calories `0` at a tenth of a serving of
`tinyFood`: `int(5 * 0.1) = 0` persists the zero. -/
def tinyEntry : MealEntry := ⟨"u", 3, "Snack", 10, 1/10, 0, 2, 2, 2, 2, 2, 2⟩

/-- Entry being created with every snapshot field unset, at one serving of
food 1. -/
def wholeEntry : MealEntry := ⟨"u", 1, "Lunch", 10, 1, 0, 0, 0, 0, 0, 0, 0⟩

/-! ## Lemmas about the identity resolver -/

/-- A header in the `Bearer` scheme is not in the `Token` scheme. -/
theorem bearer_not_token {h : String} (hb : pyStartsWith "Bearer " h = true) :
    pyStartsWith "Token " h = false := by
  unfold pyStartsWith at hb ⊢
  cases hl : h.toList with
  | nil => rw [hl] at hb; simp [List.isPrefixOf] at hb
  | cons a as =>
    rw [hl] at hb
    simp only [List.isPrefixOf, Bool.and_eq_true, beq_iff_eq] at hb
    obtain ⟨rfl, -⟩ := hb
    simp [List.isPrefixOf]

/-- Appending to a list in which a `find?` failed searches the appended part. -/
theorem find?_append_of_none {α : Type} {l₁ l₂ : List α} {f : α → Bool}
    (h : l₁.find? f = none) : (l₁ ++ l₂).find? f = l₂.find? f := by
  induction l₁ with
  | nil => rfl
  | cons a l ih =>
    rw [List.find?_cons] at h
    cases hf : f a with
    | true => rw [hf] at h; exact absurd h (by simp)
    | false =>
      rw [hf] at h
      rw [List.cons_append, List.find?_cons, hf]
      exact ih h

/-- The row `get_or_create` hands back always carries the requested key. -/
theorem get_or_create_user_id (db : ProfileDB) (uid em dn : String) :
    (get_or_create db uid em dn).1.user_id = uid := by
  unfold get_or_create
  cases hf : db.find? (fun p => p.user_id == uid) with
  | some q =>
    have := List.find?_some hf
    simpa using this
  | none => rfl

/-- When no row with the key exists, `get_or_create` fills the row from the
defaults. -/
theorem get_or_create_of_not_found {db : ProfileDB} {uid : String} (em dn : String)
    (h : db.find? (fun p => p.user_id == uid) = none) :
    get_or_create db uid em dn = (⟨uid, em, dn⟩, true, db ++ [⟨uid, em, dn⟩]) := by
  unfold get_or_create
  rw [h]

/-- Running `get_or_create` on the table it produced returns the same row and
leaves the table alone: the storage-level idempotence behind claim C8. -/
theorem get_or_create_stable {db : ProfileDB} {uid em dn : String}
    {p : UserProfile} {c : Bool} {db' : ProfileDB}
    (h : get_or_create db uid em dn = (p, c, db')) :
    get_or_create db' uid em dn = (p, false, db') := by
  unfold get_or_create at h ⊢
  cases hf : db.find? (fun q => q.user_id == uid) with
  | some q =>
    rw [hf] at h
    obtain ⟨rfl, -, rfl⟩ : q = p ∧ false = c ∧ db = db' := by
      injection h with h1 h2; injection h2 with h2 h3; exact ⟨h1, h2, h3⟩
    rw [hf]
  | none =>
    rw [hf] at h
    obtain ⟨rfl, -, rfl⟩ : (⟨uid, em, dn⟩ : UserProfile) = p ∧ true = c ∧
        db ++ [⟨uid, em, dn⟩] = db' := by
      injection h with h1 h2; injection h2 with h2 h3; exact ⟨h1, h2, h3⟩
    rw [find?_append_of_none hf]
    simp [List.find?]

/-! ## Claim C2 -/

/-- C2, counterexample: the opaque fallback is NOT applied to every
non-JWT credential. For the Bearer-scheme header `"Bearer abc"` whose token
`"abc"` is not a valid JWT, the configured chain raises an authentication
failure instead of resolving the opaque subject `"abc"`: no identity at all is
resolved. -/
theorem bearer_non_jwt_rejected :
    (resolveCredential decodeNotJwt [] "Bearer abc").1
        = .failed "Authentication failed: Invalid JWT token: Not enough segments"
    ∧ resolvedProfile (resolveCredential decodeNotJwt [] "Bearer abc") = none := by
  constructor <;> decide

/-- C2, amended: a credential in the `Token` scheme is always treated as an
opaque simple token — the subject is the portion of the token before the first
`':'` (the whole token when none), the email is synthesized as
`<subject>@example.com` when no profile row for the subject exists yet — while
a `Bearer`-scheme credential whose token is not a valid JWT is rejected with
an authentication error rather than falling back to opaque handling. -/
theorem opaque_token_resolution
    (decode : String → Except String JwtPayload) (db : ProfileDB)
    (hdrT hdrB err : String)
    (h1 : pyStartsWith "Token " hdrT = true)
    (h3 : pyStartsWith "Bearer " hdrB = true)
    (h5 : decode (splitToken hdrB) = .error err) :
    (resolvedProfile (resolveCredential decode db hdrT)).map (·.user_id)
        = some (subjectOf (splitToken hdrT))
    ∧ (db.find? (fun p => p.user_id == subjectOf (splitToken hdrT)) = none →
        (resolvedProfile (resolveCredential decode db hdrT)).map (·.email)
          = some (subjectOf (splitToken hdrT) ++ "@example.com"))
    ∧ (resolveCredential decode db hdrB).1
        = .failed ("Authentication failed: Invalid JWT token: " ++ err) := by
  refine ⟨?_, ?_, ?_⟩
  · rcases hgc : get_or_create db (subjectOf (splitToken hdrT))
        (subjectOf (splitToken hdrT) ++ "@example.com")
        ("User " ++ subjectOf (splitToken hdrT)) with ⟨p, c, db'⟩
    have hu := get_or_create_user_id db (subjectOf (splitToken hdrT))
      (subjectOf (splitToken hdrT) ++ "@example.com")
      ("User " ++ subjectOf (splitToken hdrT))
    rw [hgc] at hu
    have hu' : p.user_id = subjectOf (splitToken hdrT) := hu
    simp [resolveCredential, SimpleTokenAuthentication.authenticate, h1, hgc,
      resolvedProfile, hu']
  · intro hnone
    simp [resolveCredential, SimpleTokenAuthentication.authenticate, h1,
      get_or_create_of_not_found (subjectOf (splitToken hdrT) ++ "@example.com")
        ("User " ++ subjectOf (splitToken hdrT)) hnone,
      resolvedProfile]
  · simp [resolveCredential, SimpleTokenAuthentication.authenticate,
      SupabaseAuthentication.authenticate, SupabaseAuthentication.body,
      bearer_not_token h3, h3, h5]

/-- C2, witness: concrete instantiation of `opaque_token_resolution` at the
opaque tokens of the claim, `"abc:xyz"` under the `Token` scheme (subject
`"abc"`, synthesized email `"abc@example.com"`) and the invalid Bearer JWT
`"abc"`. -/
theorem opaque_token_resolution_witness :
    (resolvedProfile (resolveCredential decodeNotJwt [] "Token abc:xyz")).map (·.user_id)
        = some "abc"
    ∧ (resolvedProfile (resolveCredential decodeNotJwt [] "Token abc:xyz")).map (·.email)
        = some "abc@example.com"
    ∧ (resolveCredential decodeNotJwt [] "Bearer abc").1
        = .failed ("Authentication failed: Invalid JWT token: " ++ "Not enough segments") := by
  obtain ⟨a, b, c⟩ := opaque_token_resolution decodeNotJwt []
    "Token abc:xyz" "Bearer abc" "Not enough segments"
    (by decide) (by decide) rfl
  refine ⟨?_, ?_, c⟩
  · simpa using a
  · simpa using b (by decide)

/-! ## Claim C7 -/

/-- C7: a Bearer credential whose decoded payload lacks the subject claim or
the email claim is rejected with the "Invalid token format" authentication
failure, and the profile table is left untouched — it never resolves to a
default identity. -/
theorem missing_claims_rejected
    (decode : String → Except String JwtPayload) (db : ProfileDB)
    (header : String) (payload : JwtPayload)
    (h1 : pyStartsWith "Bearer " header = true)
    (h2 : decode (splitToken header) = .ok payload)
    (h3 : payload.sub = none ∨ payload.email = none) :
    resolveCredential decode db header
        = (.failed "Authentication failed: Invalid token format: missing user_id or email",
           db) := by
  have hf : (pyFalsy payload.sub || pyFalsy payload.email) = true := by
    rcases h3 with h | h <;> rw [h] <;> simp [pyFalsy]
  simp [resolveCredential, SimpleTokenAuthentication.authenticate,
    SupabaseAuthentication.authenticate, SupabaseAuthentication.body,
    bearer_not_token h1, h1, h2, hf]

/-- C7, witness: `missing_claims_rejected` applied to a structured token whose
payload has an email but no subject, presented against a table holding an
unrelated profile row. -/
theorem missing_claims_rejected_witness :
    resolveCredential decodeNoSub [bystanderProfile] "Bearer xx.yy.zz"
        = (.failed "Authentication failed: Invalid token format: missing user_id or email",
           [bystanderProfile]) :=
  missing_claims_rejected decodeNoSub [bystanderProfile] "Bearer xx.yy.zz"
    ⟨none, some "person@example.org"⟩ (by decide) rfl (Or.inl rfl)

/-! ## Claim C10 -/

/-- C10: resolution never consults the token's signature — it depends on the
token only through the signature-blind payload decode. Two Bearer credentials
whose tokens decode to the same payload resolve to the same identity and leave
the same profile table, whatever their signature segments are. -/
theorem signature_independent_identity
    (decode : String → Except String JwtPayload) (db : ProfileDB)
    (h1 h2 : String)
    (hb1 : pyStartsWith "Bearer " h1 = true)
    (hb2 : pyStartsWith "Bearer " h2 = true)
    (hd : decode (splitToken h1) = decode (splitToken h2)) :
    resolvedProfile (resolveCredential decode db h1)
        = resolvedProfile (resolveCredential decode db h2)
    ∧ (resolveCredential decode db h1).2 = (resolveCredential decode db h2).2 := by
  simp only [resolveCredential, SimpleTokenAuthentication.authenticate,
    bearer_not_token hb1, bearer_not_token hb2, Bool.false_eq_true, if_false,
    SupabaseAuthentication.authenticate, hb1, hb2, if_true,
    SupabaseAuthentication.body, hd]
  cases decode (splitToken h2) with
  | ok payload =>
    by_cases hf : (pyFalsy payload.sub || pyFalsy payload.email) = true
    · simp only [hf, if_true]; exact ⟨trivial, trivial⟩
    · simp only [Bool.not_eq_true] at hf
      simp only [hf, Bool.false_eq_true, if_false]
      rcases get_or_create db (payload.sub.getD "") (payload.email.getD "")
          (localPart (payload.email.getD "")) with ⟨p, c, db'⟩
      exact ⟨rfl, trivial⟩
  | error e =>
    simp only [if_true]
    exact ⟨trivial, trivial⟩

/-- C10, witness: two differently signed tokens carrying the payload of
subject `u7` resolve to the same (freshly created) identity and the same
table. -/
theorem signature_independent_identity_witness :
    resolvedProfile (resolveCredential decodeSubU7 [] "Bearer aa.bb.sig1")
        = resolvedProfile (resolveCredential decodeSubU7 [] "Bearer aa.bb.sig2")
    ∧ (resolveCredential decodeSubU7 [] "Bearer aa.bb.sig1").2
        = (resolveCredential decodeSubU7 [] "Bearer aa.bb.sig2").2 :=
  signature_independent_identity decodeSubU7 [] "Bearer aa.bb.sig1" "Bearer aa.bb.sig2"
    (by decide) (by decide) rfl

/-! ## Claim C8 -/

/-- C8: identity resolution is idempotent. Whenever a credential resolves
successfully, presenting the same credential again against the resulting
profile table returns the identical profile and leaves the table unchanged —
no duplicate row is created. -/
theorem resolution_idempotent
    (decode : String → Except String JwtPayload) (db : ProfileDB) (header : String)
    (p : UserProfile) (t : String) (db1 : ProfileDB)
    (h : resolveCredential decode db header = (.success p t, db1)) :
    resolveCredential decode db1 header = (.success p t, db1) := by
  by_cases hT : pyStartsWith "Token " header = true
  · rcases hgc : get_or_create db (subjectOf (splitToken header))
        (subjectOf (splitToken header) ++ "@example.com")
        ("User " ++ subjectOf (splitToken header)) with ⟨p0, c0, db0⟩
    simp only [resolveCredential, SimpleTokenAuthentication.authenticate, hT, if_true,
      hgc] at h
    obtain ⟨⟨rfl, rfl⟩, rfl⟩ : (p0 = p ∧ splitToken header = t) ∧ db0 = db1 := by
      simpa [Prod.ext_iff, AuthResult.success.injEq] using h
    simp only [resolveCredential, SimpleTokenAuthentication.authenticate, hT, if_true,
      get_or_create_stable hgc]
  · simp only [Bool.not_eq_true] at hT
    simp only [resolveCredential, SimpleTokenAuthentication.authenticate, hT,
      Bool.false_eq_true, if_false] at h ⊢
    by_cases hB : pyStartsWith "Bearer " header = true
    · simp only [SupabaseAuthentication.authenticate, hB, if_true,
        SupabaseAuthentication.body] at h ⊢
      cases hd : decode (splitToken header) with
      | ok payload =>
        simp only [hd] at h ⊢
        by_cases hf : (pyFalsy payload.sub || pyFalsy payload.email) = true
        · rw [if_pos hf] at h
          simp at h
        · simp only [Bool.not_eq_true] at hf
          simp only [hf, Bool.false_eq_true, if_false] at h ⊢
          rcases hgc : get_or_create db (payload.sub.getD "") (payload.email.getD "")
              (localPart (payload.email.getD "")) with ⟨p0, c0, db0⟩
          simp only [hgc] at h
          obtain ⟨⟨rfl, rfl⟩, rfl⟩ : (p0 = p ∧ splitToken header = t) ∧ db0 = db1 := by
            simpa [Prod.ext_iff, AuthResult.success.injEq] using h
          simp only [get_or_create_stable hgc]
      | error e =>
        simp only [hd] at h
        simp at h
    · simp only [Bool.not_eq_true] at hB
      simp only [SupabaseAuthentication.authenticate, hB, hT, Bool.false_eq_true,
        if_false] at h
      simp at h

/-- C8, witness: `resolution_idempotent` applied to the opaque credential
`"Token abc:xyz"` presented to an empty table; the second resolution returns
the row the first one created, and the table stays that one row. -/
theorem resolution_idempotent_witness :
    resolveCredential decodeNotJwt [⟨"abc", "abc@example.com", "User abc"⟩] "Token abc:xyz"
        = (.success ⟨"abc", "abc@example.com", "User abc"⟩ "abc:xyz",
           [⟨"abc", "abc@example.com", "User abc"⟩]) :=
  resolution_idempotent decodeNotJwt [] "Token abc:xyz"
    ⟨"abc", "abc@example.com", "User abc"⟩ "abc:xyz"
    [⟨"abc", "abc@example.com", "User abc"⟩] (by decide)

/-! ## Claim C3 -/

/-- C3: `MealEntry` nutrient snapshots are frozen at creation. Editing any
value of a `FoodItem` row (rewriting the foods table at that id) leaves every
stored `MealEntry` row — and hence every daily summary computed from them —
unchanged. -/
theorem snapshot_decoupled_from_food_edits (db : NutritionDB) (fid : Nat) (f : FoodItem)
    (user : String) (date : ℤ) :
    (updateFood db fid f).entries = db.entries
    ∧ MealEntryViewSet.summary (updateFood db fid f) user date
        = MealEntryViewSet.summary db user date :=
  ⟨rfl, rfl⟩

/-! ## Claim C9 -/

/-- Python truncation of zero is zero. -/
theorem truncQ_zero : truncQ 0 = 0 := by
  norm_num [truncQ, Rat.floor]

/-- Binary64 rounding of zero is zero. -/
theorem flDouble_zero : flDouble 0 = 0 := by
  simp [flDouble]

/-- Evaluation scheme for `flDouble` on a positive normal value: once the
binade and the rounded significand are known, the result is
`m * 2 ^ (e - 52)`. -/
theorem flDouble_eval {q : ℚ} {e m : ℤ} (hq : 0 < q)
    (he : floorLog2 q = e) (hrange : -1022 ≤ e)
    (hm : roundTiesEven (q * pow2 (52 - e)) = m) :
    flDouble q = (m : ℚ) * pow2 (e - 52) := by
  rw [flDouble, if_neg (ne_of_gt hq)]
  have hexp : -(52 - e) = e - 52 := by ring
  simp only [abs_of_pos hq, he, if_pos hrange, hm, if_pos hq, hexp]

/-- The binary64 value of 999/2000: the correctly rounded CPython result of
`999 / 2000`. -/
theorem fl_999_over_2000 :
    flDouble ((999 : ℚ)/2000) = (8998192055486251 : ℚ) * pow2 (-54) := by
  have hnum : ((999 : ℚ)/2000).num = 999 := by norm_num
  have hden : ((999 : ℚ)/2000).den = 2000 := by norm_num
  have hl : natLog2 ((2000 : ℕ) / Int.toNat 999) = 1 := by decide
  have he : floorLog2 ((999 : ℚ)/2000) = -2 := by
    rw [floorLog2, if_neg (by norm_num), hnum, hden, hl]
    norm_num
  have hm : roundTiesEven (((999 : ℚ)/2000) * pow2 (52 - (-2))) = 8998192055486251 := by
    norm_num [pow2, roundTiesEven, Rat.floor]
  have h := flDouble_eval (by norm_num) he (by norm_num) hm
  simpa using h

/-- Multiplying the double of 999/2000 by 100, as an exact rational. -/
theorem fl_999_times_100 :
    (8998192055486251 : ℚ) * pow2 (-54) * 100
      = 224954801387156275/4503599627370496 := by
  norm_num [pow2]

/-- The binary64 value of the product: the correctly rounded CPython result
of `(999 / 2000) * 100` — about `49.95000000000000284`. -/
theorem fl_999_second :
    flDouble ((224954801387156275 : ℚ)/4503599627370496)
      = (7029837543348634 : ℚ) * pow2 (-47) := by
  have hnum : ((224954801387156275 : ℚ)/4503599627370496).num
      = 224954801387156275 := by norm_num
  have hden : ((224954801387156275 : ℚ)/4503599627370496).den
      = 4503599627370496 := by norm_num
  have hl : natLog2 (Int.toNat 224954801387156275 / 4503599627370496) = 5 := by decide
  have he : floorLog2 ((224954801387156275 : ℚ)/4503599627370496) = 5 := by
    rw [floorLog2, if_pos (by norm_num), hnum, hden, hl]
    norm_num
  have hm : roundTiesEven (((224954801387156275 : ℚ)/4503599627370496) * pow2 (52 - 5))
      = 7029837543348634 := by
    norm_num [pow2, roundTiesEven, Rat.floor]
  have h := flDouble_eval (by norm_num) he (by norm_num) hm
  simpa using h

/-- The float computation of the 999/2000 progress, end to end: `int` of the
double of `(999 / 2000) * 100` is 49. -/
theorem progress_float_999 :
    truncQ (flDouble (flDouble ((999 : ℚ)/2000) * 100)) = 49 := by
  rw [fl_999_over_2000, fl_999_times_100, fl_999_second]
  norm_num [truncQ, Rat.floor, pow2]

/-- The binary64 value of 29/100: the correctly rounded CPython result of
`580 / 2000` — about `0.28999999999999998`. -/
theorem fl_29_over_100 :
    flDouble ((29 : ℚ)/100) = (5224175567749775 : ℚ) * pow2 (-54) := by
  have hnum : ((29 : ℚ)/100).num = 29 := by norm_num
  have hden : ((29 : ℚ)/100).den = 100 := by norm_num
  have hl : natLog2 ((100 : ℕ) / Int.toNat 29) = 1 := by decide
  have he : floorLog2 ((29 : ℚ)/100) = -2 := by
    rw [floorLog2, if_neg (by norm_num), hnum, hden, hl]
    norm_num
  have hm : roundTiesEven (((29 : ℚ)/100) * pow2 (52 - (-2))) = 5224175567749775 := by
    norm_num [pow2, roundTiesEven, Rat.floor]
  have h := flDouble_eval (by norm_num) he (by norm_num) hm
  simpa using h

/-- Multiplying the double of 29/100 by 100, as an exact rational. -/
theorem fl_29_times_100 :
    (5224175567749775 : ℚ) * pow2 (-54) * 100
      = 130604389193744375/4503599627370496 := by
  norm_num [pow2]

/-- The binary64 value of the product: the correctly rounded CPython result
of `(580 / 2000) * 100` — about `28.999999999999996`. -/
theorem fl_29_second :
    flDouble ((130604389193744375 : ℚ)/4503599627370496)
      = (8162774324609023 : ℚ) * pow2 (-48) := by
  have hnum : ((130604389193744375 : ℚ)/4503599627370496).num
      = 130604389193744375 := by norm_num
  have hden : ((130604389193744375 : ℚ)/4503599627370496).den
      = 4503599627370496 := by norm_num
  have hl : natLog2 (Int.toNat 130604389193744375 / 4503599627370496) = 4 := by decide
  have he : floorLog2 ((130604389193744375 : ℚ)/4503599627370496) = 4 := by
    rw [floorLog2, if_pos (by norm_num), hnum, hden, hl]
    norm_num
  have hm : roundTiesEven (((130604389193744375 : ℚ)/4503599627370496) * pow2 (52 - 4))
      = 8162774324609023 := by
    norm_num [pow2, roundTiesEven, Rat.floor]
  have h := flDouble_eval (by norm_num) he (by norm_num) hm
  simpa using h

/-- The float computation of the 580/2000 progress, end to end: `int` of the
double of `(580 / 2000) * 100` is 28, one below the exact-quotient truncation
29 — the program's float division is observable here. -/
theorem progress_float_580 :
    truncQ (flDouble (flDouble ((29 : ℚ)/100) * 100)) = 28 := by
  rw [fl_29_over_100, fl_29_times_100, fl_29_second]
  norm_num [truncQ, Rat.floor, pow2]

/-- C9, counterexample: saving an entry whose calorie snapshot is `0` for a
tenth of a serving of a 5-kcal food persists the zero — `int(5 * 0.1) = 0` —
even though the food's per-serving calorie value is not zero. The claim's
consequence "a caller cannot persist an explicit zero for a snapshot field
whose food has a non-zero per-serving value" therefore fails. -/
theorem save_persists_zero_calories :
    (MealEntry.save tinyFood tinyEntry).calories = 0 ∧ tinyFood.calories ≠ 0 := by
  constructor
  · norm_num [MealEntry.save, tinyFood, tinyEntry, truncQ, Rat.floor]
  · decide

/-- C9, amended: on every save, each snapshot field that is zero/unset is
recomputed as the food's per-serving value times the entry's servings
(`int`-truncated for calories) and each non-zero snapshot field is left
untouched; consequently a zero cannot be persisted for a snapshot field whose
recomputed value — the product with servings, truncated for calories — is
non-zero. -/
theorem save_snapshot_rules (food : FoodItem) (e : MealEntry) :
    ((MealEntry.save food e).calories
        = if e.calories = 0 then truncQ ((food.calories : ℚ) * e.servings) else e.calories)
    ∧ ((MealEntry.save food e).protein
        = if e.protein = 0 then food.protein * e.servings else e.protein)
    ∧ ((MealEntry.save food e).carbs
        = if e.carbs = 0 then food.carbs * e.servings else e.carbs)
    ∧ ((MealEntry.save food e).fat
        = if e.fat = 0 then food.fat * e.servings else e.fat)
    ∧ ((MealEntry.save food e).fiber
        = if e.fiber = 0 then food.fiber * e.servings else e.fiber)
    ∧ ((MealEntry.save food e).sugar
        = if e.sugar = 0 then food.sugar * e.servings else e.sugar)
    ∧ ((MealEntry.save food e).sodium
        = if e.sodium = 0 then food.sodium * e.servings else e.sodium)
    ∧ (truncQ ((food.calories : ℚ) * e.servings) ≠ 0 → (MealEntry.save food e).calories ≠ 0)
    ∧ (food.protein * e.servings ≠ 0 → (MealEntry.save food e).protein ≠ 0)
    ∧ (food.carbs * e.servings ≠ 0 → (MealEntry.save food e).carbs ≠ 0)
    ∧ (food.fat * e.servings ≠ 0 → (MealEntry.save food e).fat ≠ 0)
    ∧ (food.fiber * e.servings ≠ 0 → (MealEntry.save food e).fiber ≠ 0)
    ∧ (food.sugar * e.servings ≠ 0 → (MealEntry.save food e).sugar ≠ 0)
    ∧ (food.sodium * e.servings ≠ 0 → (MealEntry.save food e).sodium ≠ 0) := by
  refine ⟨rfl, rfl, rfl, rfl, rfl, rfl, rfl, ?_, ?_, ?_, ?_, ?_, ?_, ?_⟩ <;> intro h
  · by_cases h0 : e.calories = 0
    · simp only [MealEntry.save]
      rw [if_pos h0]
      exact h
    · simp only [MealEntry.save]
      rw [if_neg h0]
      exact h0
  · by_cases h0 : e.protein = 0
    · simp only [MealEntry.save]
      rw [if_pos h0]
      exact h
    · simp only [MealEntry.save]
      rw [if_neg h0]
      exact h0
  · by_cases h0 : e.carbs = 0
    · simp only [MealEntry.save]
      rw [if_pos h0]
      exact h
    · simp only [MealEntry.save]
      rw [if_neg h0]
      exact h0
  · by_cases h0 : e.fat = 0
    · simp only [MealEntry.save]
      rw [if_pos h0]
      exact h
    · simp only [MealEntry.save]
      rw [if_neg h0]
      exact h0
  · by_cases h0 : e.fiber = 0
    · simp only [MealEntry.save]
      rw [if_pos h0]
      exact h
    · simp only [MealEntry.save]
      rw [if_neg h0]
      exact h0
  · by_cases h0 : e.sugar = 0
    · simp only [MealEntry.save]
      rw [if_pos h0]
      exact h
    · simp only [MealEntry.save]
      rw [if_neg h0]
      exact h0
  · by_cases h0 : e.sodium = 0
    · simp only [MealEntry.save]
      rw [if_pos h0]
      exact h
    · simp only [MealEntry.save]
      rw [if_neg h0]
      exact h0

/-- C9, witness: `save_snapshot_rules` applied to a fresh entry of one serving
of the 95-kcal food: the zero calorie snapshot is recomputed and the result is
not zero. -/
theorem save_snapshot_rules_witness :
    (MealEntry.save foodA wholeEntry).calories = truncQ ((95 : ℚ) * 1)
    ∧ (MealEntry.save foodA wholeEntry).calories ≠ 0 := by
  have h := save_snapshot_rules foodA wholeEntry
  constructor
  · have h1 := h.1
    simpa [wholeEntry, foodA] using h1
  · exact h.2.2.2.2.2.2.2.1 (by norm_num [truncQ, Rat.floor, foodA, wholeEntry])

/-! ## Claim C5 -/

/-- C5: a daily summary over a date with no logged entries is not an error —
all seven totals are `0` and all four progress percentages are `0`, whatever
the user's goal row holds. -/
theorem summary_empty_day_zero (db : NutritionDB) (user : String) (date : ℤ)
    (h : MealEntryViewSet.entriesFor db user date = []) :
    (MealEntryViewSet.summary db user date).total_calories = 0
    ∧ (MealEntryViewSet.summary db user date).total_protein = 0
    ∧ (MealEntryViewSet.summary db user date).total_carbs = 0
    ∧ (MealEntryViewSet.summary db user date).total_fat = 0
    ∧ (MealEntryViewSet.summary db user date).total_fiber = 0
    ∧ (MealEntryViewSet.summary db user date).total_sugar = 0
    ∧ (MealEntryViewSet.summary db user date).total_sodium = 0
    ∧ (MealEntryViewSet.summary db user date).calorie_progress = 0
    ∧ (MealEntryViewSet.summary db user date).protein_progress = 0
    ∧ (MealEntryViewSet.summary db user date).carbs_progress = 0
    ∧ (MealEntryViewSet.summary db user date).fat_progress = 0 := by
  simp [MealEntryViewSet.summary, h, truncQ_zero, flDouble_zero]

/-- C5, witness: `summary_empty_day_zero` at a store holding a goal row and no
entries at all. -/
theorem summary_empty_day_zero_witness :
    (MealEntryViewSet.summary emptyDayDB "u" 5).total_calories = 0
    ∧ (MealEntryViewSet.summary emptyDayDB "u" 5).total_protein = 0
    ∧ (MealEntryViewSet.summary emptyDayDB "u" 5).total_carbs = 0
    ∧ (MealEntryViewSet.summary emptyDayDB "u" 5).total_fat = 0
    ∧ (MealEntryViewSet.summary emptyDayDB "u" 5).total_fiber = 0
    ∧ (MealEntryViewSet.summary emptyDayDB "u" 5).total_sugar = 0
    ∧ (MealEntryViewSet.summary emptyDayDB "u" 5).total_sodium = 0
    ∧ (MealEntryViewSet.summary emptyDayDB "u" 5).calorie_progress = 0
    ∧ (MealEntryViewSet.summary emptyDayDB "u" 5).protein_progress = 0
    ∧ (MealEntryViewSet.summary emptyDayDB "u" 5).carbs_progress = 0
    ∧ (MealEntryViewSet.summary emptyDayDB "u" 5).fat_progress = 0 :=
  summary_empty_day_zero emptyDayDB "u" 5 rfl

/-! ## Claim C1 -/

/-- C1, counterexample: the reported progress percentage is not
`round(total / target * 100)`. With target 2000 and total 999 the code reports
`int((999 / 2000) * 100) = int(49.95000000000000284) = 49`, while rounding
49.95 gives 50. -/
theorem summary_progress_truncates_not_rounds :
    (MealEntryViewSet.summary progressDB "u" 10).total_calories = 999
    ∧ (MealEntryViewSet.summary progressDB "u" 10).calorie_goal = 2000
    ∧ (MealEntryViewSet.summary progressDB "u" 10).calorie_progress = 49
    ∧ specRound (((999 : ℚ) / 2000) * 100) = 50 := by
  have he : MealEntryViewSet.entriesFor progressDB "u" 10
      = [⟨"u", 1, "Lunch", 10, 1, 999, 10, 20, 5, 1, 1, 1⟩] := by decide
  have hg : MealEntryViewSet.getOrCreateGoal progressDB "u"
      = ⟨"u", 2000, 150, 200, 65, 25, 50, 2300⟩ := by decide
  refine ⟨by decide, by decide, ?_, by norm_num [specRound, Rat.floor]⟩
  simp only [MealEntryViewSet.summary, he, hg]
  norm_num
  exact progress_float_999

/-- C1, amended: for each nutrient in {calories, protein, carbs, fat} the
reported progress equals `total / target * 100` truncated toward zero
(Python `int(...)`) — for calories the quotient and the product are binary64
float operations (`flDouble` of the exact results, as CPython computes
`int / int` and `float * int`), for the Decimal nutrients they are exact —
and a target that is zero or negative reports progress `0`; no division by
zero occurs. -/
theorem summary_progress_spec (db : NutritionDB) (user : String) (date : ℤ) :
    ((MealEntryViewSet.summary db user date).calorie_goal ≤ 0 →
      (MealEntryViewSet.summary db user date).calorie_progress = 0)
    ∧ (0 < (MealEntryViewSet.summary db user date).calorie_goal →
      (MealEntryViewSet.summary db user date).calorie_progress
        = truncQ (flDouble (flDouble
            (((MealEntryViewSet.summary db user date).total_calories : ℚ)
              / ((MealEntryViewSet.summary db user date).calorie_goal : ℚ)) * 100)))
    ∧ ((MealEntryViewSet.summary db user date).protein_goal ≤ 0 →
      (MealEntryViewSet.summary db user date).protein_progress = 0)
    ∧ (0 < (MealEntryViewSet.summary db user date).protein_goal →
      (MealEntryViewSet.summary db user date).protein_progress
        = truncQ (((MealEntryViewSet.summary db user date).total_protein
            / (MealEntryViewSet.summary db user date).protein_goal) * 100))
    ∧ ((MealEntryViewSet.summary db user date).carbs_goal ≤ 0 →
      (MealEntryViewSet.summary db user date).carbs_progress = 0)
    ∧ (0 < (MealEntryViewSet.summary db user date).carbs_goal →
      (MealEntryViewSet.summary db user date).carbs_progress
        = truncQ (((MealEntryViewSet.summary db user date).total_carbs
            / (MealEntryViewSet.summary db user date).carbs_goal) * 100))
    ∧ ((MealEntryViewSet.summary db user date).fat_goal ≤ 0 →
      (MealEntryViewSet.summary db user date).fat_progress = 0)
    ∧ (0 < (MealEntryViewSet.summary db user date).fat_goal →
      (MealEntryViewSet.summary db user date).fat_progress
        = truncQ (((MealEntryViewSet.summary db user date).total_fat
            / (MealEntryViewSet.summary db user date).fat_goal) * 100)) := by
  refine ⟨?_, ?_, ?_, ?_, ?_, ?_, ?_, ?_⟩ <;>
    intro h <;>
    simp only [MealEntryViewSet.summary] at h ⊢ <;>
    first
      | rw [if_neg (not_lt.mpr h)]
      | rw [if_pos h]

/-- C1, witness: `summary_progress_spec` at a store whose goal targets are all
zero (progress 0) and at the 999-kcal/2000-target store (progress equals the
float-computed truncated quotient), together with the concrete float
divergence: 580 kcal against a 2000 target reports 28 —
`int(28.999999999999996)` — not the exact-quotient truncation 29. -/
theorem summary_progress_spec_witness :
    (MealEntryViewSet.summary emptyDayDB "u" 5).calorie_progress = 0
    ∧ (MealEntryViewSet.summary progressDB "u" 10).calorie_progress
        = truncQ (flDouble (flDouble
            (((MealEntryViewSet.summary progressDB "u" 10).total_calories : ℚ)
              / ((MealEntryViewSet.summary progressDB "u" 10).calorie_goal : ℚ)) * 100))
    ∧ (MealEntryViewSet.summary progress580DB "u" 20).calorie_progress = 28
    ∧ truncQ (((580 : ℚ) / 2000) * 100) = 29 := by
  refine ⟨(summary_progress_spec emptyDayDB "u" 5).1 (by decide),
    (summary_progress_spec progressDB "u" 10).2.1 (by decide), ?_, ?_⟩
  · have he : MealEntryViewSet.entriesFor progress580DB "u" 20
        = [⟨"u", 1, "Dinner", 20, 1, 580, 10, 20, 5, 1, 1, 1⟩] := by decide
    have hg : MealEntryViewSet.getOrCreateGoal progress580DB "u"
        = ⟨"u", 2000, 150, 200, 65, 25, 50, 2300⟩ := by decide
    simp only [MealEntryViewSet.summary, he, hg]
    norm_num
    exact progress_float_580
  · norm_num [truncQ, Rat.floor]

/-! ## Dict-grouping lemmas -/

section Grouping
variable {α κ β : Type} [DecidableEq κ]

theorem findK_nil (c : κ) : findK ([] : List (κ × β)) c = none := rfl

theorem findK_cons (p : κ × β) (l : List (κ × β)) (c : κ) :
    findK (p :: l) c = if p.1 = c then some p.2 else findK l c := by
  by_cases h : p.1 = c <;> simp [findK, List.find?_cons, h]

theorem find?_append_of_some {γ : Type} {l₁ l₂ : List γ} {f : γ → Bool} {x : γ}
    (h : l₁.find? f = some x) : (l₁ ++ l₂).find? f = some x := by
  induction l₁ with
  | nil => simp [List.find?] at h
  | cons a l ih =>
    rw [List.find?_cons] at h
    cases hf : f a with
    | true =>
      rw [hf] at h
      simp only at h
      simpa [List.find?_cons, hf] using h
    | false =>
      rw [hf] at h
      simp only at h
      simp only [List.cons_append, List.find?_cons, hf]
      exact ih h

theorem findK_append_of_some {l₁ l₂ : List (κ × β)} {c : κ} {v : β}
    (h : findK l₁ c = some v) : findK (l₁ ++ l₂) c = some v := by
  unfold findK at h ⊢
  cases hf : l₁.find? (fun p => decide (p.1 = c)) with
  | none => rw [hf] at h; simp at h
  | some p =>
    rw [hf] at h
    rw [find?_append_of_some hf]
    exact h

theorem findK_append_of_none {l₁ l₂ : List (κ × β)} {c : κ}
    (h : findK l₁ c = none) : findK (l₁ ++ l₂) c = findK l₂ c := by
  unfold findK at h ⊢
  cases hf : l₁.find? (fun p => decide (p.1 = c)) with
  | none => rw [find?_append_of_none hf]
  | some p => rw [hf] at h; simp at h

theorem findK_single (a : κ) (b : β) (c : κ) :
    findK [(a, b)] c = if a = c then some b else none := by
  simp [findK_cons, findK_nil]

theorem findK_update (l : List (κ × β)) (d : κ) (add : β → α → β) (e : α) (c : κ) :
    findK (l.map (fun p => if p.1 = d then (p.1, add p.2 e) else p)) c
      = if d = c then (findK l c).map (fun b => add b e) else findK l c := by
  induction l with
  | nil => simp [findK_nil]
  | cons p l ih =>
    by_cases h1 : p.1 = d
    · by_cases h2 : d = c
      · subst h2; subst h1
        simp [findK_cons, ih]
      · rw [List.map_cons, if_pos h1, findK_cons, findK_cons]
        have h3 : p.1 ≠ c := h1 ▸ h2
        rw [if_neg h3, if_neg h3, ih, if_neg h2]
    · rw [List.map_cons, if_neg h1, findK_cons, findK_cons, ih]
      by_cases h2 : p.1 = c
      · have h3 : d ≠ c := fun hdc => h1 (h2.trans hdc.symm)
        rw [if_pos h2, if_pos h2, if_neg h3]
      · rw [if_neg h2, if_neg h2]

theorem findK_stepGroup (k : α → κ) (z : α → β) (add : β → α → β)
    (acc : List (κ × β)) (e : α) (c : κ) :
    findK (stepGroup k z add acc e) c
      = if k e = c then some (add ((findK acc c).getD (z e)) e) else findK acc c := by
  unfold stepGroup
  by_cases hs : (findK acc (k e)).isSome
  · rw [if_pos hs, findK_update]
    by_cases h : k e = c
    · subst h
      cases ho : findK acc (k e) with
      | none => rw [ho] at hs; simp at hs
      | some b => simp [ho]
    · rw [if_neg h, if_neg h]
  · rw [if_neg hs]
    have hn : findK acc (k e) = none := by
      cases ho : findK acc (k e) with
      | none => rfl
      | some b => rw [ho] at hs; simp at hs
    by_cases h : k e = c
    · subst h
      rw [findK_append_of_none hn, findK_single, hn]
      simp
    · rw [if_neg h]
      cases ho : findK acc c with
      | none =>
        rw [findK_append_of_none ho, findK_single, if_neg h]
      | some v => exact findK_append_of_some ho

end Grouping

theorem keysOf_nil {κ β : Type} : keysOf ([] : List (κ × β)) = [] := rfl

theorem keysOf_cons {κ β : Type} (p : κ × β) (l : List (κ × β)) :
    keysOf (p :: l) = p.1 :: keysOf l := rfl

section Grouping2
variable {α κ β : Type} [DecidableEq κ]

theorem findK_groupFold (k : α → κ) (z : α → β) (Z : κ → β) (add : β → α → β)
    (hz : ∀ a, z a = Z (k a)) (es : List α) :
    ∀ (acc : List (κ × β)) (c : κ),
      findK (groupFold k z add es acc) c
        = match findK acc c, es.filter (fun e => decide (k e = c)) with
          | some b, l => some (l.foldl add b)
          | none, [] => none
          | none, l => some (l.foldl add (Z c)) := by
  induction es with
  | nil =>
    intro acc c
    simp only [groupFold, List.foldl_nil, List.filter_nil]
    cases h : findK acc c <;> simp
  | cons e es ih =>
    intro acc c
    show findK (groupFold k z add es (stepGroup k z add acc e)) c = _
    rw [ih, findK_stepGroup]
    by_cases h : k e = c
    · rw [if_pos h]
      rw [List.filter_cons_of_pos (by simp [h])]
      cases hacc : findK acc c with
      | some b => simp [List.foldl_cons]
      | none => simp [List.foldl_cons, hz e, h]
    · rw [if_neg h]
      rw [List.filter_cons_of_neg (by simp [h])]

theorem keysOf_update (acc : List (κ × β)) (d : κ) (add : β → α → β) (e : α) :
    keysOf (acc.map (fun p => if p.1 = d then (p.1, add p.2 e) else p)) = keysOf acc := by
  induction acc with
  | nil => rfl
  | cons p l ih =>
    have hhead : (if p.1 = d then (p.1, add p.2 e) else p).1 = p.1 := by
      by_cases hp : p.1 = d <;> simp [hp]
    rw [List.map_cons, keysOf_cons, keysOf_cons, hhead, ih]

theorem findK_eq_none_iff (l : List (κ × β)) (c : κ) :
    findK l c = none ↔ c ∉ keysOf l := by
  induction l with
  | nil => simp [findK_nil, keysOf_nil]
  | cons p l ih =>
    rw [findK_cons, keysOf_cons]
    by_cases h : p.1 = c
    · simp [h]
    · rw [if_neg h, ih]
      constructor
      · intro hcl
        simp only [List.mem_cons, not_or]
        exact ⟨fun hc => h hc.symm, hcl⟩
      · intro hcl
        simp only [List.mem_cons, not_or] at hcl
        exact hcl.2

theorem keysOf_stepGroup (k : α → κ) (z : α → β) (add : β → α → β)
    (acc : List (κ × β)) (e : α) :
    keysOf (stepGroup k z add acc e)
      = if (findK acc (k e)).isSome then keysOf acc else keysOf acc ++ [k e] := by
  unfold stepGroup
  by_cases hs : (findK acc (k e)).isSome
  · rw [if_pos hs, if_pos hs, keysOf_update]
  · rw [if_neg hs, if_neg hs]
    simp [keysOf]

theorem nodup_keysOf_stepGroup (k : α → κ) (z : α → β) (add : β → α → β)
    (acc : List (κ × β)) (e : α) (hnd : (keysOf acc).Nodup) :
    (keysOf (stepGroup k z add acc e)).Nodup := by
  rw [keysOf_stepGroup]
  by_cases hs : (findK acc (k e)).isSome
  · rwa [if_pos hs]
  · rw [if_neg hs]
    have hn : findK acc (k e) = none := by
      cases ho : findK acc (k e) with
      | none => rfl
      | some b => rw [ho] at hs; simp at hs
    have : k e ∉ keysOf acc := (findK_eq_none_iff acc (k e)).mp hn
    simp [List.nodup_append, hnd, this]

theorem nodup_keysOf_groupFold (k : α → κ) (z : α → β) (add : β → α → β) (es : List α) :
    ∀ (acc : List (κ × β)), (keysOf acc).Nodup → (keysOf (groupFold k z add es acc)).Nodup := by
  induction es with
  | nil => intro acc h; exact h
  | cons e es ih =>
    intro acc h
    exact ih _ (nodup_keysOf_stepGroup k z add acc e h)

theorem keysOf_groupFold_subset (k : α → κ) (z : α → β) (add : β → α → β) (es : List α) :
    ∀ (acc : List (κ × β)), keysOf (groupFold k z add es acc) ⊆ keysOf acc ++ es.map k := by
  induction es with
  | nil => intro acc; simp [groupFold]
  | cons e es ih =>
    intro acc
    intro c hc
    have := ih (stepGroup k z add acc e) hc
    rw [List.mem_append] at this
    rcases this with h1 | h2
    · rw [keysOf_stepGroup] at h1
      by_cases hs : (findK acc (k e)).isSome
      · rw [if_pos hs] at h1
        simp [List.mem_append, h1]
      · rw [if_neg hs] at h1
        rw [List.mem_append] at h1
        rcases h1 with h1 | h1
        · simp [List.mem_append, h1]
        · simp at h1
          simp [h1]
    · simp [List.mem_append, h2]

theorem mem_of_findK {l : List (κ × β)} {c : κ} {b : β} (h : findK l c = some b) :
    (c, b) ∈ l := by
  induction l with
  | nil => simp [findK_nil] at h
  | cons q l ih =>
    rw [findK_cons] at h
    by_cases hq : q.1 = c
    · rw [if_pos hq] at h
      injection h with h
      have heq : (c, b) = q := by rw [← hq, ← h]
      rw [List.mem_cons]
      exact Or.inl heq
    · rw [if_neg hq] at h
      right
      exact ih h

theorem findK_of_mem {l : List (κ × β)} (hnd : (keysOf l).Nodup) {p : κ × β} (hp : p ∈ l) :
    findK l p.1 = some p.2 := by
  induction l with
  | nil => cases hp
  | cons q l ih =>
    rcases List.mem_cons.mp hp with rfl | hp'
    · simp [findK_cons]
    · have hkey : p.1 ∈ keysOf l := List.mem_map_of_mem Prod.fst hp'
      have hnd' := hnd
      simp only [keysOf, List.map_cons, List.nodup_cons] at hnd'
      have hq : q.1 ≠ p.1 := fun hqp => hnd'.1 (hqp ▸ hkey)
      rw [findK_cons, if_neg hq]
      exact ih (by simpa [keysOf] using hnd'.2) hp'

end Grouping2

/-! ## Weekly aggregation lemmas and claim C4 -/

namespace MealEntryViewSet

theorem findK_fillFold (ds : List ℤ) :
    ∀ (acc : List (ℤ × DayTotals)) (c : ℤ),
      findK (ds.foldl fillStep acc) c
        = match findK acc c with
          | some b => some b
          | none => if c ∈ ds then some ⟨c, 0, 0, 0, 0⟩ else none := by
  induction ds with
  | nil =>
    intro acc c
    cases h : findK acc c <;> simp [h]
  | cons d ds ih =>
    intro acc c
    rw [List.foldl_cons, ih]
    unfold fillStep
    by_cases hs : (findK acc d).isSome
    · rw [if_pos hs]
      cases hacc : findK acc c with
      | some b => simp [hacc]
      | none =>
        have hdc : ¬c = d := by
          intro hh
          rw [hh] at hacc
          rw [hacc] at hs
          simp at hs
        simp [hacc, List.mem_cons, hdc]
    · rw [if_neg hs]
      have hn : findK acc d = none := by
        cases ho : findK acc d with
        | none => rfl
        | some b => rw [ho] at hs; simp at hs
      by_cases hdc : d = c
      · subst hdc
        have h2 : findK (acc ++ [(d, (⟨d, 0, 0, 0, 0⟩ : DayTotals))]) d
            = some ⟨d, 0, 0, 0, 0⟩ := by
          rw [findK_append_of_none hn, findK_single]
          simp
        simp [h2, hn, List.mem_cons]
      · cases hacc : findK acc c with
        | some b =>
          simp [findK_append_of_some hacc, hacc]
        | none =>
          have h2 : findK (acc ++ [(d, (⟨d, 0, 0, 0, 0⟩ : DayTotals))]) c = none := by
            rw [findK_append_of_none hacc, findK_single, if_neg hdc]
          have hcd : ¬c = d := fun hh => hdc hh.symm
          simp [h2, hacc, List.mem_cons, hcd]

theorem keysOf_fillFold_nodup (ds : List ℤ) :
    ∀ (acc : List (ℤ × DayTotals)), (keysOf acc).Nodup →
      (keysOf (ds.foldl fillStep acc)).Nodup := by
  induction ds with
  | nil => intro acc h; exact h
  | cons d ds ih =>
    intro acc h
    rw [List.foldl_cons]
    apply ih
    unfold fillStep
    by_cases hs : (findK acc d).isSome
    · rwa [if_pos hs]
    · rw [if_neg hs]
      have hn : findK acc d = none := by
        cases ho : findK acc d with
        | none => rfl
        | some b => rw [ho] at hs; simp at hs
      have hnotin : d ∉ keysOf acc := (findK_eq_none_iff acc d).mp hn
      have hkeys : keysOf (acc ++ [(d, (⟨d, 0, 0, 0, 0⟩ : DayTotals))]) = keysOf acc ++ [d] := by
        simp [keysOf]
      rw [hkeys]
      simp [List.nodup_append, h, hnotin]

theorem keysOf_fillFold_subset (ds : List ℤ) :
    ∀ (acc : List (ℤ × DayTotals)),
      keysOf (ds.foldl fillStep acc) ⊆ keysOf acc ++ ds := by
  induction ds with
  | nil => intro acc; simp
  | cons d ds ih =>
    intro acc c hc
    have := ih (fillStep acc d) hc
    rw [List.mem_append] at this
    rcases this with h1 | h1
    · unfold fillStep at h1
      by_cases hs : (findK acc d).isSome
      · rw [if_pos hs] at h1
        simp [List.mem_append, h1]
      · rw [if_neg hs] at h1
        rw [keysOf, List.map_append] at h1
        rw [List.mem_append] at h1
        rcases h1 with h1 | h1
        · simp only [List.mem_append]
          left
          simpa [keysOf] using h1
        · simp at h1
          simp [h1]
    · simp [h1]

/-- Every record stored by the weekly grouping and fill carries its own date
as its key. -/
theorem dateKey_invariant (es : List MealEntry) (start : ℤ) :
    ∀ p ∈ weeklyFill start (groupFold (fun e => e.date) dayZero dayAdd es []),
      (p.2 : DayTotals).date = p.1 := by
  have hstep : ∀ (acc : List (ℤ × DayTotals)) (e : MealEntry),
      (∀ p ∈ acc, (p.2 : DayTotals).date = p.1) →
      ∀ p ∈ stepGroup (fun e => e.date) dayZero dayAdd acc e, (p.2 : DayTotals).date = p.1 := by
    intro acc e hacc p hp
    unfold stepGroup at hp
    by_cases hs : (findK acc e.date).isSome
    · rw [if_pos hs] at hp
      rcases List.mem_map.mp hp with ⟨q, hq, hqe⟩
      by_cases hqd : q.1 = e.date
      · rw [if_pos hqd] at hqe
        rw [← hqe]
        simp [dayAdd, hacc q hq]
      · rw [if_neg hqd] at hqe
        rw [← hqe]
        exact hacc q hq
    · rw [if_neg hs] at hp
      rw [List.mem_append] at hp
      rcases hp with hp | hp
      · exact hacc p hp
      · simp at hp
        rw [hp]
        simp [dayZero, dayAdd]
  have hgroup : ∀ (es : List MealEntry) (acc : List (ℤ × DayTotals)),
      (∀ p ∈ acc, (p.2 : DayTotals).date = p.1) →
      ∀ p ∈ groupFold (fun e => e.date) dayZero dayAdd es acc, (p.2 : DayTotals).date = p.1 := by
    intro es
    induction es with
    | nil => intro acc h; exact h
    | cons e es ih => intro acc h; exact ih _ (hstep acc e h)
  have hfill : ∀ (ds : List ℤ) (acc : List (ℤ × DayTotals)),
      (∀ p ∈ acc, (p.2 : DayTotals).date = p.1) →
      ∀ p ∈ ds.foldl fillStep acc, (p.2 : DayTotals).date = p.1 := by
    intro ds
    induction ds with
    | nil => intro acc h; exact h
    | cons d ds ih =>
      intro acc h
      rw [List.foldl_cons]
      apply ih
      intro p hp
      unfold fillStep at hp
      by_cases hs : (findK acc d).isSome
      · rw [if_pos hs] at hp
        exact h p hp
      · rw [if_neg hs] at hp
        rw [List.mem_append] at hp
        rcases hp with hp | hp
        · exact h p hp
        · simp at hp
          rw [hp]
  exact hfill _ _ (hgroup es [] (by intro p hp; cases hp))

/-- Folding `dayAdd` accumulates the component sums. -/
theorem foldl_dayAdd (l : List MealEntry) :
    ∀ (b : DayTotals),
      l.foldl dayAdd b
        = ⟨b.date, b.calories + (l.map (·.calories)).sum, b.protein + (l.map (·.protein)).sum,
           b.carbs + (l.map (·.carbs)).sum, b.fat + (l.map (·.fat)).sum⟩ := by
  induction l with
  | nil => intro b; simp
  | cons e l ih =>
    intro b
    rw [List.foldl_cons, ih]
    simp [dayAdd, add_assoc]

theorem mem_windowDates (start c : ℤ) :
    c ∈ windowDates start ↔ start ≤ c ∧ c ≤ start + 6 := by
  unfold windowDates
  simp only [List.mem_map, List.mem_range]
  constructor
  · rintro ⟨i, hi, rfl⟩
    omega
  · rintro ⟨h1, h2⟩
    refine ⟨(c - start).toNat, by omega, by omega⟩

theorem windowDates_nodup (start : ℤ) : (windowDates start).Nodup := by
  unfold windowDates
  refine List.Nodup.map ?_ (List.nodup_range 7)
  intro a b hab
  simp only at hab
  omega

theorem windowDates_sorted (start : ℤ) :
    (windowDates start).Sorted (· ≤ ·) := by
  unfold windowDates
  refine List.Pairwise.map _ ?_ (List.pairwise_lt_range 7)
  intro a b hab
  simp only at hab ⊢
  omega

end MealEntryViewSet

namespace MealEntryViewSet

theorem windowDates_length (start : ℤ) : (windowDates start).length = 7 := by
  simp [windowDates]

theorem filter_window_collapse (entries : List MealEntry) (user : String)
    (start today d : ℤ) (h1 : start ≤ d) (h2 : d ≤ today) :
    (entries.filter (fun e => e.user_id == user && decide (start ≤ e.date)
        && decide (e.date ≤ today))).filter (fun e => decide (e.date = d))
      = entries.filter (fun e => e.user_id == user && e.date == d) := by
  rw [List.filter_filter]
  apply List.filter_congr
  intro e he
  by_cases hd : e.date = d
  · simp [hd, h1, h2]
  · simp [hd]

theorem weekly_pieces (db : NutritionDB) (user : String) (today : ℤ) :
    weekly db user today
      = List.insertionSort (fun a b : DayTotals => a.date ≤ b.date)
          ((weeklyFill (today - 6)
            (groupFold (fun e : MealEntry => e.date) dayZero dayAdd
              (db.entries.filter (fun e => e.user_id == user
                && decide (today - 6 ≤ e.date) && decide (e.date ≤ today))) [])).map
            Prod.snd) := rfl

/-- C4: for every user and every state of logged entries, the weekly summary
returns exactly 7 per-day records — one per calendar day of the trailing
7-day window ending today (inclusive), in ascending date order — and each
record's four totals (calories, protein, carbs, fat; the only totals the
record type carries, with no goal or progress fields) are the sums over that
user's entries of that day, zero when the day has no entries. -/
theorem weekly_seven_days (db : NutritionDB) (user : String) (today : ℤ) :
    (weekly db user today).length = 7
    ∧ (weekly db user today).map (·.date) = windowDates (today - 6)
    ∧ ∀ t ∈ weekly db user today,
        t.calories = ((db.entries.filter (fun e => e.user_id == user
            && e.date == t.date)).map (·.calories)).sum
        ∧ t.protein = ((db.entries.filter (fun e => e.user_id == user
            && e.date == t.date)).map (·.protein)).sum
        ∧ t.carbs = ((db.entries.filter (fun e => e.user_id == user
            && e.date == t.date)).map (·.carbs)).sum
        ∧ t.fat = ((db.entries.filter (fun e => e.user_id == user
            && e.date == t.date)).map (·.fat)).sum := by
  set start := today - 6 with hstart
  set es := db.entries.filter (fun e => e.user_id == user
    && decide (start ≤ e.date) && decide (e.date ≤ today)) with hes
  set G := groupFold (fun e : MealEntry => e.date) dayZero dayAdd es [] with hGdef
  set F := weeklyFill start G with hFdef
  have hw : weekly db user today
      = List.insertionSort (fun a b : DayTotals => a.date ≤ b.date) (F.map Prod.snd) := rfl
  -- the grouped dict, looked up at a date
  have hGfind : ∀ c : ℤ, findK G c
      = match es.filter (fun e => decide (e.date = c)) with
        | [] => none
        | l => some (l.foldl dayAdd ⟨c, 0, 0, 0, 0⟩) := by
    intro c
    have h := findK_groupFold (fun e : MealEntry => e.date) dayZero
      (fun d => (⟨d, 0, 0, 0, 0⟩ : DayTotals)) dayAdd (fun _ => rfl) es [] c
    rw [findK_nil] at h
    cases hl : es.filter (fun e => decide (e.date = c)) with
    | nil => rw [hl] at h; simpa using h
    | cons e0 l0 => rw [hl] at h; simpa using h
  -- grouped keys are window dates
  have hkeysG_sub : ∀ c ∈ keysOf G, c ∈ windowDates start := by
    intro c hc
    have hsub := keysOf_groupFold_subset (fun e : MealEntry => e.date) dayZero dayAdd es [] hc
    rw [keysOf_nil, List.nil_append] at hsub
    rcases List.mem_map.mp hsub with ⟨e, heES, hdate⟩
    have hpred := List.of_mem_filter heES
    simp only [Bool.and_eq_true, decide_eq_true_eq] at hpred
    rw [mem_windowDates, ← hdate]
    omega
  have hndG : (keysOf G).Nodup :=
    nodup_keysOf_groupFold _ _ _ es [] (by simp [keysOf_nil])
  have hndF : (keysOf F).Nodup := keysOf_fillFold_nodup _ _ hndG
  have hFfind : ∀ c : ℤ, findK F c
      = match findK G c with
        | some b => some b
        | none => if c ∈ windowDates start then some ⟨c, 0, 0, 0, 0⟩ else none :=
    fun c => findK_fillFold (windowDates start) G c
  have hmemF : ∀ c : ℤ, c ∈ keysOf F ↔ c ∈ windowDates start := by
    intro c
    constructor
    · intro hc
      have hne : findK F c ≠ none := by
        intro hn
        exact ((findK_eq_none_iff F c).mp hn) hc
      rw [hFfind] at hne
      cases hGc : findK G c with
      | some b =>
        have : c ∈ keysOf G := by
          by_contra hout
          rw [← findK_eq_none_iff] at hout
          rw [hout] at hGc
          cases hGc
        exact hkeysG_sub c this
      | none =>
        rw [hGc] at hne
        by_cases hcw : c ∈ windowDates start
        · exact hcw
        · simp [hcw] at hne
    · intro hcw
      by_contra hout
      have hn : findK F c = none := (findK_eq_none_iff F c).mpr hout
      rw [hFfind] at hn
      cases hGc : findK G c with
      | some b => rw [hGc] at hn; cases hn
      | none =>
        rw [hGc] at hn
        rw [if_pos hcw] at hn
        cases hn
  have hperm : (keysOf F).Perm (windowDates start) :=
    (List.perm_ext_iff_of_nodup hndF (windowDates_nodup start)).mpr hmemF
  have hinv : ∀ p ∈ F, (p.2 : DayTotals).date = p.1 := dateKey_invariant es start
  have hdates_eq_keys : (F.map Prod.snd).map (fun t : DayTotals => t.date) = keysOf F := by
    rw [List.map_map]
    exact List.map_congr_left hinv
  have hSperm : (weekly db user today).Perm (F.map Prod.snd) := by
    rw [hw]
    exact List.perm_insertionSort _ _
  have hSdates_perm : ((weekly db user today).map (fun t : DayTotals => t.date)).Perm
      (windowDates start) := by
    refine (hSperm.map _).trans ?_
    rw [hdates_eq_keys]
    exact hperm
  have hSsorted : (weekly db user today).Sorted (fun a b : DayTotals => a.date ≤ b.date) := by
    rw [hw]
    exact List.sorted_insertionSort _ _
  have hSdates_sorted : ((weekly db user today).map (fun t : DayTotals => t.date)).Sorted
      (· ≤ ·) := by
    rw [List.Sorted, List.pairwise_map]
    exact hSsorted
  have hmap : (weekly db user today).map (fun t : DayTotals => t.date)
      = windowDates start :=
    List.eq_of_perm_of_sorted hSdates_perm hSdates_sorted (windowDates_sorted start)
  refine ⟨?_, hmap, ?_⟩
  · have := congrArg List.length hmap
    rw [List.length_map, windowDates_length] at this
    exact this
  · intro t ht
    have ht2 : t ∈ F.map Prod.snd := (hSperm.mem_iff).mp ht
    rcases List.mem_map.mp ht2 with ⟨p, hpF, hpt⟩
    have hdate : t.date = p.1 := by rw [← hpt]; exact hinv p hpF
    have hfindF : findK F t.date = some t := by
      rw [hdate, ← hpt]
      exact findK_of_mem hndF hpF
    have ht_window : t.date ∈ windowDates start := by
      rw [← hmap]
      exact List.mem_map_of_mem _ ht
    have hbounds := (mem_windowDates start t.date).mp ht_window
    have hcollapse := filter_window_collapse db.entries user start today t.date
      hbounds.1 (by omega)
    rw [hFfind] at hfindF
    have main : t.calories = ((es.filter (fun e => decide (e.date = t.date))).map
          (·.calories)).sum
        ∧ t.protein = ((es.filter (fun e => decide (e.date = t.date))).map (·.protein)).sum
        ∧ t.carbs = ((es.filter (fun e => decide (e.date = t.date))).map (·.carbs)).sum
        ∧ t.fat = ((es.filter (fun e => decide (e.date = t.date))).map (·.fat)).sum := by
      cases hGc : findK G t.date with
      | some b =>
        rw [hGc] at hfindF
        injection hfindF with hbt
        rw [hGfind] at hGc
        cases hl : es.filter (fun e => decide (e.date = t.date)) with
        | nil =>
          rw [hl] at hGc
          cases hGc
        | cons e0 l' =>
          rw [hl] at hGc
          injection hGc with hGc
          rw [← hbt, ← hGc, foldl_dayAdd]
          refine ⟨?_, ?_, ?_, ?_⟩ <;> simp
      | none =>
        rw [hGc] at hfindF
        rw [if_pos ht_window] at hfindF
        injection hfindF with hzt
        have hl : es.filter (fun e => decide (e.date = t.date)) = [] := by
          by_contra hne
          rw [hGfind] at hGc
          cases hl2 : es.filter (fun e => decide (e.date = t.date)) with
          | nil => exact hne hl2
          | cons e0 l' =>
            rw [hl2] at hGc
            cases hGc
        rw [hl, ← hzt]
        simp
    rw [hes] at main
    rw [hcollapse] at main
    exact main

end MealEntryViewSet

/-! ## Frequently-used ranking and claim C6 -/

namespace MealEntryViewSet

/-- Folding the servings accumulation gives the plain sum. -/
theorem foldl_qAdd (l : List MealEntry) :
    ∀ b : ℚ, l.foldl (fun s e => s + e.servings) b = b + (l.map (·.servings)).sum := by
  induction l with
  | nil => intro b; simp
  | cons e l ih =>
    intro b
    rw [List.foldl_cons, ih]
    simp [add_assoc]

/-- Every pair the 30-day grouping stores is a food id together with the sum
of the serving multipliers of the (window-filtered) entries of that food, and
the food has at least one such entry. -/
theorem grouped_pair_spec (es : List MealEntry) (p : ℕ × ℚ)
    (hp : p ∈ groupFold (fun e : MealEntry => e.food_item) (fun _ => (0 : ℚ))
      (fun s e => s + e.servings) es []) :
    p.2 = servingsSum es p.1 ∧ ∃ e ∈ es, e.food_item = p.1 := by
  have hnd : (keysOf (groupFold (fun e : MealEntry => e.food_item) (fun _ => (0 : ℚ))
      (fun s e => s + e.servings) es [])).Nodup :=
    nodup_keysOf_groupFold _ _ _ es [] (by simp [keysOf_nil])
  have hfind := findK_of_mem hnd hp
  have h := findK_groupFold (fun e : MealEntry => e.food_item) (fun _ => (0 : ℚ))
    (fun _ => (0 : ℚ)) (fun s e => s + e.servings) (fun _ => rfl) es [] p.1
  rw [findK_nil] at h
  rw [hfind] at h
  cases hl : es.filter (fun e => decide (e.food_item = p.1)) with
  | nil =>
    rw [hl] at h
    simp at h
  | cons e0 l0 =>
    rw [hl] at h
    simp only at h
    injection h with h
    constructor
    · rw [h, foldl_qAdd]
      unfold servingsSum
      rw [hl]
      simp
    · have he0 : e0 ∈ es.filter (fun e => decide (e.food_item = p.1)) := by
        rw [hl]; exact List.mem_cons_self e0 l0
      have hmem := List.mem_of_mem_filter he0
      have hpred := List.of_mem_filter he0
      simp only [decide_eq_true_eq] at hpred
      exact ⟨e0, hmem, hpred⟩

/-- C6, amended claim theorem body helper: the ranked pairs of the endpoint. -/
theorem frequently_used_pieces (db : NutritionDB) (user : String) (today : ℤ) (limit : ℕ) :
    frequently_used db user today limit
      = ((List.insertionSort (fun a b : ℕ × ℚ => b.2 ≤ a.2)
          (groupFold (fun e : MealEntry => e.food_item) (fun _ => (0 : ℚ))
            (fun s e => s + e.servings)
            (db.entries.filter (fun e => e.user_id == user
              && decide (today - 30 ≤ e.date))) [])).take limit).filterMap
          (fun p => db.foods.find? (fun f => f.id == p.1)) := rfl

/-- C6, amended: the frequently-used query returns at most `limit` food rows,
in descending order of the sum of serving multipliers of the user's entries
dated on or after `today - 30` (the query has no upper date bound), and every
returned row is a stored food with at least one such entry. -/
theorem frequently_used_ranking (db : NutritionDB) (user : String) (today : ℤ)
    (limit : ℕ) :
    (frequently_used db user today limit).length ≤ limit
    ∧ (frequently_used db user today limit).Pairwise
        (fun f g => servingsSum (db.entries.filter (fun e => e.user_id == user
              && decide (today - 30 ≤ e.date))) g.id
            ≤ servingsSum (db.entries.filter (fun e => e.user_id == user
              && decide (today - 30 ≤ e.date))) f.id)
    ∧ (∀ f ∈ frequently_used db user today limit,
        f ∈ db.foods ∧ ∃ e ∈ db.entries, e.user_id = user ∧ today - 30 ≤ e.date
          ∧ e.food_item = f.id) := by
  set es := db.entries.filter (fun e => e.user_id == user
    && decide (today - 30 ≤ e.date)) with hes
  set G := groupFold (fun e : MealEntry => e.food_item) (fun _ => (0 : ℚ))
    (fun s e => s + e.servings) es [] with hGdef
  set ranked := List.insertionSort (fun a b : ℕ × ℚ => b.2 ≤ a.2) G with hranked
  set top := ranked.take limit with htop
  have hr : frequently_used db user today limit
      = top.filterMap (fun p => db.foods.find? (fun f => f.id == p.1)) := rfl
  have htop_sub : ∀ p ∈ top, p ∈ G := by
    intro p hp
    have h1 : p ∈ ranked := (List.take_sublist limit ranked).mem hp
    exact ((List.perm_insertionSort _ G).mem_iff).mp h1
  have hspec : ∀ p ∈ top, (p : ℕ × ℚ).2 = servingsSum es p.1 ∧ ∃ e ∈ es, e.food_item = p.1 :=
    fun p hp => grouped_pair_spec es p (htop_sub p hp)
  refine ⟨?_, ?_, ?_⟩
  · rw [hr]
    calc (top.filterMap (fun p => db.foods.find? (fun f => f.id == p.1))).length
        ≤ top.length := List.length_filterMap_le _ _
      _ ≤ limit := by rw [htop, List.length_take]; exact min_le_left _ _
  · rw [hr]
    have hsorted : ranked.Pairwise (fun a b : ℕ × ℚ => b.2 ≤ a.2) :=
      List.sorted_insertionSort _ G
    have htop_sorted : top.Pairwise (fun a b : ℕ × ℚ => b.2 ≤ a.2) :=
      List.Pairwise.sublist (List.take_sublist limit ranked) hsorted
    have htop_strong : top.Pairwise
        (fun a b : ℕ × ℚ => servingsSum es b.1 ≤ servingsSum es a.1) := by
      refine List.Pairwise.imp_of_mem ?_ htop_sorted
      intro a b ha hb hab
      rw [← (hspec a ha).1, ← (hspec b hb).1]
      exact hab
    refine List.Pairwise.filterMap _ ?_ htop_strong
    intro a b hab fa hfa fb hfb
    have hida : fa.id = a.1 := by
      have := List.find?_some hfa
      simpa using this
    have hidb : fb.id = b.1 := by
      have := List.find?_some hfb
      simpa using this
    rw [hida, hidb]
    exact hab
  · rw [hr]
    intro f hf
    rcases List.mem_filterMap.mp hf with ⟨p, hp, hfind⟩
    have hfmem : f ∈ db.foods := List.mem_of_find?_eq_some hfind
    have hid : f.id = p.1 := by
      have := List.find?_some hfind
      simpa using this
    rcases (hspec p hp).2 with ⟨e, heES, hefood⟩
    have hmem := List.mem_of_mem_filter heES
    have hpred := List.of_mem_filter heES
    simp only [Bool.and_eq_true, decide_eq_true_eq, beq_iff_eq] at hpred
    exact ⟨hfmem, e, hmem, hpred.1, hpred.2, by rw [hefood, hid]⟩

end MealEntryViewSet


namespace MealEntryViewSet

/-- C4, witness: `weekly_seven_days` at a store with no entries at all and
today = day 100: seven records, dates 94..100, and the day-94 record — the
zero record — carries the (empty) sums of that day. -/
theorem weekly_seven_days_witness :
    (weekly emptyDayDB "u" 100).length = 7
    ∧ (weekly emptyDayDB "u" 100).map (fun t => t.date) = windowDates (100 - 6)
    ∧ (⟨94, 0, 0, 0, 0⟩ : DayTotals).calories
        = ((emptyDayDB.entries.filter (fun e => e.user_id == "u"
            && e.date == (94 : ℤ))).map (·.calories)).sum := by
  have h := weekly_seven_days emptyDayDB "u" 100
  exact ⟨h.1, h.2.1, (h.2.2 ⟨94, 0, 0, 0, 0⟩ (by decide)).1⟩

/-- C6, counterexample: the query scope is not bounded by today. With food A
logged at 3 servings inside the window and food B logged at 5 servings only
on day 110 — ten days after today (= day 100) — food B is returned and ranked
first, although B has no entry within the trailing 30-day window
`[today - 30, today]`. -/
theorem frequently_used_includes_future :
    frequently_used futureDB "u" 100 10 = [foodB, foodA]
    ∧ futureDB.entries.filter (fun e => e.food_item == foodB.id
        && decide ((100 : ℤ) - 30 ≤ e.date) && decide (e.date ≤ (100 : ℤ))) = [] := by
  constructor
  · norm_num [frequently_used, futureDB, foodA, foodB, groupFold, stepGroup, findK,
      List.insertionSort, List.orderedInsert, List.filterMap_cons, List.find?]
    decide
  · decide

/-- C6, witness: `frequently_used_ranking` at the two-food store of the
claim's example — food A once at 1.0 serving, food B once at 3.0 servings —
with the concrete result: food B ranks before food A. -/
theorem frequently_used_ranking_witness :
    frequently_used frequentDB "u" 100 10 = [foodB, foodA]
    ∧ (frequently_used frequentDB "u" 100 10).length ≤ 10
    ∧ (foodB ∈ frequentDB.foods ∧ ∃ e ∈ frequentDB.entries, e.user_id = "u"
        ∧ (100 : ℤ) - 30 ≤ e.date ∧ e.food_item = foodB.id) := by
  have h := frequently_used_ranking frequentDB "u" 100 10
  refine ⟨?_, h.1, h.2.2 foodB ?_⟩
  · norm_num [frequently_used, frequentDB, foodA, foodB, groupFold, stepGroup, findK,
      List.insertionSort, List.orderedInsert, servingsSum, List.filterMap_cons, List.find?]
    decide
  · norm_num [frequently_used, frequentDB, foodA, foodB, groupFold, stepGroup, findK,
      List.insertionSort, List.orderedInsert, List.filterMap_cons, List.find?]
    decide

end MealEntryViewSet

end Fitness
